import Mathlib

/-!
Shallow embedding of the two numeric pipelines of videojitter:
the signal synthesizer (generate-fake-recording.py) and the recording
aligner (generate-report.py).  Machine floats are modelled by exact
rationals, except where a claim is specifically about IEEE special values,
where an extended value type with NaN and infinities is used.  Pandas
dataframes are modelled as lists of row structures, and pandas column
operations become list transformations.
-/

/-- Frame label as it appears in the spec JSON `frames` list and in the
recorded CSV `frame` column (generate-report.py lines 169-184 compares
against the strings "BLACK" and "WHITE"). -/
inductive Frame where
  | BLACK
  | WHITE
deriving DecidableEq, Repr

/-- One row of the reference-transition table built at generate-report.py
lines 56-74.  The pandas frame is indexed by
`timestamp_seconds = index * frame_duration` where `index` ranges over
`np.arange(len(frames))`; we keep the originating index as a field. -/
structure RefTransition where
  index : Nat
  timestamp_seconds : ℚ
  frame : Frame
  previous_frame_count : Nat
deriving DecidableEq, Repr

/-- One row of the recording-analysis CSV read at generate-report.py
lines 81-85: columns `recording_timestamp_seconds` and `frame`. -/
structure RecordedRow where
  recording_timestamp_seconds : ℚ
  frame : Frame
deriving DecidableEq, Repr

/-- Pandas `series.min()` for a list of rationals.  The empty case (NaN in
pandas) is mapped to the junk value 0 and is never relied upon. -/
def listMin : List ℚ → ℚ
  | [] => 0
  | x :: xs => xs.foldl min x

/-- Pandas `series.max()`; see `listMin` for the empty case. -/
def listMax : List ℚ → ℚ
  | [] => 0
  | x :: xs => xs.foldl max x

/-- Function `interval(series)` of generate-report.py lines 39-40: the pair
(series.min(), series.max()), standing for the `pd.Interval`. -/
def interval (series : List ℚ) : ℚ × ℚ :=
  (listMin series, listMax series)

/-- Property `pd.Interval.length` (right minus left endpoint). -/
def intervalLength (i : ℚ × ℚ) : ℚ := i.2 - i.1

/-- Function `rescale(series, target_range)` of generate-report.py
lines 43-47: affinely maps the series' own [min, max] interval onto
`target`.  Exact-rational rendering; division by a zero-length interval
yields the junk value 0 here, so the callers guard that case the same way
the floating pipeline surfaces it (see `rescaleFloat` for the IEEE
behaviour of the unguarded division). -/
def rescale (series : List ℚ) (target : ℚ × ℚ) : List ℚ :=
  series.map (fun x =>
    (x - (interval series).1) / intervalLength (interval series)
      * intervalLength target + target.1)

/-- Helper for `transitionsDiff`: pandas elementwise
`frame != frame.shift()` from the second element on, where `prev` is the
previous frame. -/
def transitionsDiffTail (prev : Frame) : List Frame → List Bool
  | [] => []
  | f :: rest => decide (f ≠ prev) :: transitionsDiffTail f rest

/-- Lines 63-67 of generate-report.py: the boolean series
`frame != frame.shift()` whose first entry is then forced to `False`
(`reference_transitions_diff[0] = False`). -/
def transitionsDiff : List Frame → List Bool
  | [] => []
  | f :: rest => false :: transitionsDiffTail f rest

/-- Helper for `cumsumBool` carrying the running sum. -/
def cumsumBoolFrom (acc : Nat) : List Bool → List Nat
  | [] => []
  | b :: rest =>
      (acc + if b then 1 else 0) :: cumsumBoolFrom (acc + if b then 1 else 0) rest

/-- Pandas `Series.cumsum()` on a boolean series (used as group keys at
generate-report.py line 69). -/
def cumsumBool (l : List Bool) : List Nat := cumsumBoolFrom 0 l

/-- Helper for `groupCumcount`; `seen` accumulates the keys of the earlier
rows in reverse order. -/
def groupCumcountFrom (seen : List Nat) : List Nat → List Nat
  | [] => []
  | k :: rest => seen.count k :: groupCumcountFrom (k :: seen) rest

/-- Pandas `groupby(keys).cumcount()`: for each position, the number of
earlier positions carrying the same key. -/
def groupCumcount (keys : List Nat) : List Nat := groupCumcountFrom [] keys

/-- Pandas `Series.shift()`: the first entry becomes missing (NaN in
pandas), the remaining entries move down by one. -/
def seriesShift (l : List Nat) : List (Option Nat) :=
  match l with
  | [] => []
  | _ :: _ => none :: l.dropLast.map some

/-- Line 55 of generate-report.py: `frame_duration = den / num`. -/
def frameDuration (num den : Nat) : ℚ := (den : ℚ) / (num : ℚ)

/-- Lines 56-74 of generate-report.py: diff the frame list against its
shift (first entry forced false), attach
`previous_frame_count = groupby(diff.cumsum()).cumcount().shift() + 1`,
and keep exactly the rows where the diff is true.  The pandas `NaN + 1` on
the (always discarded) first row appears here as `Option.getD 0 + 1`. -/
def referenceTransitions (num den : Nat) (frames : List Frame) : List RefTransition :=
  let diff := transitionsDiff frames
  let previousFrameCounts :=
    (seriesShift (groupCumcount (cumsumBool diff))).map (fun o => o.getD 0 + 1)
  ((((List.range frames.length).zip frames).zip (diff.zip previousFrameCounts)).filter
      (fun p => p.2.1)).map
    (fun p => ⟨p.1.1, (p.1.1 : ℚ) * frameDuration num den, p.1.2, p.2.2⟩)

/-- One row of the merged transition table built at generate-report.py
lines 108-135.  `recording_timestamp_seconds`, the scaled timestamp, the
recorded frame label and `error_seconds` are missing (pandas NaN) on rows
coming only from the reference side of the outer merge. -/
structure AlignedRow where
  reference_timestamp_seconds : ℚ
  reference_frame : Frame
  reference_previous_frame_count : Nat
  recording_timestamp_seconds : Option ℚ
  scaled_recording_timestamp_seconds : Option ℚ
  frame : Option Frame
  repeated : Bool
  expected_recording_timestamp_seconds : ℚ
  error_seconds : Option ℚ
deriving DecidableEq, Repr

/-- Whether a list of rationals is sorted in non-decreasing order;
`pd.Index.is_monotonic_increasing`, checked by `pd.merge_asof` on its left
keys. -/
def sortedLE : List ℚ → Bool
  | x :: y :: rest => decide (x ≤ y) && sortedLE (y :: rest)
  | _ => true

/-- The last right key that is at most `t` (the backward as-of candidate of
`pd.merge_asof`, with exact matches allowed). -/
def lastLE (ts : List ℚ) (t : ℚ) : Option ℚ :=
  (ts.filter (fun x => decide (x ≤ t))).getLast?

/-- The first right key strictly greater than `t` (the forward as-of
candidate; an exact match is already the backward candidate). -/
def firstGT (ts : List ℚ) (t : ℚ) : Option ℚ :=
  (ts.filter (fun x => decide (t < x))).head?

/-- Nearest-key match of `pd.merge_asof(..., direction="nearest")` on a
sorted key list with pairwise distinct keys: the closer of the backward and
forward candidates, the backward one on a tie (pandas picks the backward
row when the two distances are equal). -/
def nearestTimestamp (ts : List ℚ) (t : ℚ) : Option ℚ :=
  match lastLE ts t, firstGT ts t with
  | none, none => none
  | some b, none => some b
  | none, some f => some f
  | some b, some f => some (if t - b ≤ f - t then b else f)

/-- Lines 99-106 of generate-report.py: the recorded timestamps rescaled
onto the reference-transition interval; these become the index used as
left keys of the as-of merge. -/
def scaledTimestamps (refs : List RefTransition) (recorded : List RecordedRow) : List ℚ :=
  rescale (recorded.map (·.recording_timestamp_seconds))
    (interval (refs.map (·.timestamp_seconds)))

/-- The recorded rows paired with their scaled timestamps (the dataframe of
lines 99-106, before the merge). -/
def scaledRecorded (refs : List RefTransition) (recorded : List RecordedRow) :
    List (RecordedRow × ℚ) :=
  recorded.zip (scaledTimestamps refs recorded)

/-- The recorded rows that the as-of merge of lines 113-121 associates with
the reference timestamp `t`. -/
def matchedRows (refs : List RefTransition) (recorded : List RecordedRow) (t : ℚ) :
    List (RecordedRow × ℚ) :=
  (scaledRecorded refs recorded).filter
    (fun p => decide (nearestTimestamp (refs.map (·.timestamp_seconds)) p.2 = some t))

/-- Number of recorded rows that the nearest-neighbor merge associates with
the reference timestamp `t`. -/
def matchCount (refs : List RefTransition) (recorded : List RecordedRow) (t : ℚ) : Nat :=
  (matchedRows refs recorded t).length

/-- The block of outer-merge rows contributed by one reference transition
(lines 108-124): its matched recorded rows, or a single row with missing
recorded columns when no recorded row matched it.  The `repeated`,
expected-timestamp and error columns are attached by later passes. -/
def rowsForRef (refs : List RefTransition) (recorded : List RecordedRow)
    (r : RefTransition) : List AlignedRow :=
  if matchedRows refs recorded r.timestamp_seconds = [] then
    [⟨r.timestamp_seconds, r.frame, r.previous_frame_count,
      none, none, none, false, 0, none⟩]
  else
    (matchedRows refs recorded r.timestamp_seconds).map (fun p =>
      ⟨r.timestamp_seconds, r.frame, r.previous_frame_count,
        some p.1.recording_timestamp_seconds, some p.2, some p.1.frame, false, 0, none⟩)

/-- The outer merge of lines 108-124: every reference transition
contributes its matched recorded rows, or a missing-transition row.  Row
order abstracts the pandas merge ordering; every claim below is about row
contents and counts, never order across reference keys. -/
def mergedTable (refs : List RefTransition) (recorded : List RecordedRow) :
    List AlignedRow :=
  (refs.map (rowsForRef refs recorded)).flatten

/-- Lines 125-127: `repeated = reference_timestamp_seconds.duplicated(keep=False)`,
true on every row whose reference timestamp occurs more than once in the
table. -/
def setRepeated (rows : List AlignedRow) : List AlignedRow :=
  rows.map (fun r =>
    { r with repeated :=
        decide (2 ≤ rows.countP
          (fun s => s.reference_timestamp_seconds = r.reference_timestamp_seconds)) })

/-- Lines 128-131: the reference-timestamp column rescaled onto the
recorded-timestamp interval (`expected_recording_timestamp_seconds`).  The
recording-timestamp interval of the merged table equals the interval of the
input recorded timestamps, which is what is passed here. -/
def setExpected (recordedTs : List ℚ) (rows : List AlignedRow) : List AlignedRow :=
  (rows.zip (rescale (rows.map (·.reference_timestamp_seconds)) (interval recordedTs))).map
    (fun p => { p.1 with expected_recording_timestamp_seconds := p.2 })

/-- Lines 132-135: `error_seconds = recording_timestamp_seconds -
reference_timestamp_seconds` (NaN, i.e. `none`, on missing rows). -/
def setError (rows : List AlignedRow) : List AlignedRow :=
  rows.map (fun r =>
    { r with error_seconds :=
        r.recording_timestamp_seconds.map (· - r.reference_timestamp_seconds) })

/-- Failure modes of the aligner that abort the python run with an
exception. -/
inductive AlignError where
  | nanMergeKeys
  | unsortedMergeKeys
  | emptyRegression
  | degenerateRegression
deriving DecidableEq, Repr

/-- Lines 99-135 of generate-report.py: rescale the recorded timestamps,
as-of merge them with the reference transitions, outer-merge back, and
attach the `repeated`, expected-timestamp and error columns.
`pd.merge_asof` raises when its left keys contain NaN (which the unguarded
`rescale` division produces exactly when the recorded interval has zero
length while the reference interval is usable, or when the reference
interval itself is NaN, i.e. no reference transitions) and when its left
keys are not sorted; both aborts are modelled as errors. -/
def alignStage (refs : List RefTransition) (recorded : List RecordedRow) :
    Except AlignError (List AlignedRow) :=
  let recordedTs := recorded.map (·.recording_timestamp_seconds)
  if recordedTs ≠ [] ∧ (intervalLength (interval recordedTs) = 0 ∨ refs = []) then
    .error .nanMergeKeys
  else if ¬ sortedLE (scaledTimestamps refs recorded) = true then
    .error .unsortedMergeKeys
  else
    .ok (setError (setExpected recordedTs (setRepeated (mergedTable refs recorded))))

/-- Messages the aligner prints to stderr that the claims care about
(lines 91-97 and 153-164 of generate-report.py). -/
inductive ReportMessage where
  | countMismatch
  | largeClockSkew (skew : ℚ)
  | benignClockSkew (skew : ℚ)
deriving DecidableEq, Repr

/-- Lines 141-147: the rows used for the regression, those with a present
recording timestamp and not tagged repeated. -/
def validTransitions (rows : List AlignedRow) : List AlignedRow :=
  rows.filter (fun r => r.recording_timestamp_seconds.isSome && !r.repeated)

/-- The (x, y) points fed to `np.polynomial.Polynomial.fit` at lines
148-152: recording timestamp against error, over the valid rows (on which
both columns are present). -/
def fitPoints (rows : List AlignedRow) : List (ℚ × ℚ) :=
  (validTransitions rows).filterMap (fun r =>
    match r.recording_timestamp_seconds, r.error_seconds with
    | some t, some e => some (t, e)
    | _, _ => none)

/-- Arithmetic mean of a list of rationals (pandas `Series.mean`, after NaN
entries have been dropped); the empty case divides by zero and yields the
junk value 0, mirroring the NaN that pandas produces there. -/
def meanQ (l : List ℚ) : ℚ := l.sum / l.length

/-- Denominator of the closed-form least-squares line through `pts`:
`n * sum x^2 - (sum x)^2`.  Zero exactly when the fit is rank-deficient
(fewer than two distinct x values). -/
def fitDenom (pts : List (ℚ × ℚ)) : ℚ :=
  (pts.length : ℚ) * (pts.map (fun p => p.1 ^ 2)).sum - ((pts.map (·.1)).sum) ^ 2

/-- Slope of the least-squares line through `pts` (the unique minimiser, in
the raw x coordinate). -/
def fitSlope (pts : List (ℚ × ℚ)) : ℚ :=
  ((pts.length : ℚ) * (pts.map (fun p => p.1 * p.2)).sum
      - (pts.map (·.1)).sum * (pts.map (·.2)).sum) / fitDenom pts

/-- Intercept of the least-squares line through `pts`. -/
def fitIntercept (pts : List (ℚ × ℚ)) : ℚ :=
  ((pts.map (·.2)).sum - fitSlope pts * (pts.map (·.1)).sum) / (pts.length : ℚ)

/-- The coefficient `linear_regression.coef[1]` read at lines 154-155.
`np.polynomial.Polynomial.fit` returns coefficients over the window [-1, 1]
after affinely mapping the fit domain [min x, max x] onto it, so its first
coefficient is the raw least-squares slope times half the x range. -/
def fitCoef1 (pts : List (ℚ × ℚ)) : ℚ :=
  fitSlope pts * (listMax (pts.map (·.1)) - listMin (pts.map (·.1))) / 2

/-- Value of the fitted polynomial subtracted from one row's error at lines
165-167: rows with a missing recording timestamp keep a missing error
(NaN minus NaN in pandas). -/
def subtractFit (c0 c1 : ℚ) (r : AlignedRow) : AlignedRow :=
  { r with error_seconds :=
      match r.recording_timestamp_seconds, r.error_seconds with
      | some t, some e => some (e - (c0 + c1 * t))
      | _, _ => none }

/-- Lines 141-167 of generate-report.py: fit a degree-1 polynomial of error
against recording timestamp over the valid rows when clock-skew
compensation is requested, a degree-0 one (the mean) otherwise; report the
estimated skew (a warning when `abs coef[1] > 0.10`, an informational
message otherwise) and subtract the fitted prediction from every row's
error.  `Polynomial.fit` raises on an empty x vector, and produces no
finite fit in the rank-deficient degree-1 case; both are modelled as
errors. -/
def skewStage (compensateClockSkew : Bool) (rows : List AlignedRow) :
    Except AlignError (List AlignedRow × List ReportMessage) :=
  let pts := fitPoints rows
  if pts = [] then .error .emptyRegression
  else if compensateClockSkew ∧ fitDenom pts = 0 then .error .degenerateRegression
  else
    let c1 := if compensateClockSkew then fitSlope pts else 0
    let c0 := if compensateClockSkew then fitIntercept pts else meanQ (pts.map (·.2))
    let msgs :=
      if compensateClockSkew then
        if |fitCoef1 pts| > 1/10 then [ReportMessage.largeClockSkew (1 + fitCoef1 pts)]
        else [ReportMessage.benignClockSkew (1 + fitCoef1 pts)]
      else []
    .ok (rows.map (subtractFit c0 c1), msgs)

/-- The error values of the rows whose recorded `frame` column equals
`lab`, NaN entries dropped, as read by the means at lines 169-174. -/
def labelErrors (lab : Frame) (rows : List AlignedRow) : List ℚ :=
  (rows.filter (fun r => r.frame = some lab)).filterMap (·.error_seconds)

/-- Per-row update of the bias-removal pass, for fixed offsets. -/
def subtractLabelOffset (blackOffset whiteOffset : ℚ) (r : AlignedRow) : AlignedRow :=
  if r.frame = some Frame.BLACK then
    { r with error_seconds := r.error_seconds.map (· - blackOffset) }
  else if r.frame = some Frame.WHITE then
    { r with error_seconds := r.error_seconds.map (· - whiteOffset) }
  else r

/-- Lines 169-184 of generate-report.py: compute the mean error of the
BLACK-labelled and of the WHITE-labelled rows (both from the incoming
table) and subtract each label's mean from that label's rows. -/
def biasStage (rows : List AlignedRow) : List AlignedRow :=
  rows.map (subtractLabelOffset (meanQ (labelErrors Frame.BLACK rows))
    (meanQ (labelErrors Frame.WHITE rows)))

/-- The aligner pipeline of generate_report (generate-report.py lines
50-189, chart rendering excluded): build the reference transitions, warn
when the recorded count differs from the reference count, align, apply the
skew/offset regression pass, then the per-label bias-removal pass. -/
def generate_report (num den : Nat) (frames : List Frame)
    (recorded : List RecordedRow) (compensateClockSkew : Bool) :
    Except AlignError (List AlignedRow × List ReportMessage) := do
  let refs := referenceTransitions num den frames
  let mismatch : List ReportMessage :=
    if recorded.length = refs.length then [] else [.countMismatch]
  let table ← alignStage refs recorded
  let (table, skewMsgs) ← skewStage compensateClockSkew table
  .ok (biasStage table, mismatch ++ skewMsgs)

/-- Lines 133-135 of generate-fake-recording.py:
`downsample_ratio = int(np.ceil(internal_sample_rate_hz / output_sample_rate_hz))`,
as the exact ceiling of the rational ratio. -/
def downsample_ratio (internalSampleRateHz outputSampleRateHz : Nat) : Nat :=
  (⌈(internalSampleRateHz : ℚ) / (outputSampleRateHz : ℚ)⌉).toNat

/-- Line 136: the internal working sample rate
`sample_rate = output_sample_rate_hz * downsample_ratio`. -/
def internalSampleRate (internalSampleRateHz outputSampleRateHz : Nat) : Nat :=
  outputSampleRateHz * downsample_ratio internalSampleRateHz outputSampleRateHz

/-- Externally visible file effects of one run of generate-fake-recording.py,
in order: `parse_arguments` opens (creates or truncates) the file named by
--output-recording-file with mode "wb" (lines 16-22); the `assert` at line
132 raises AssertionError; `scipy.io.wavfile.write` at lines 193-197 writes
the WAV payload, tagged with the given sample rate. -/
inductive SynthEffect where
  | openOutputFile
  | assertFailed
  | writeWav (sampleRateHz : Nat)
deriving DecidableEq, Repr

/-- The file-effect trace of a generate-fake-recording.py run as a function
of the two sample-rate options: argparse opens the output file while
parsing, then `generate_fake_recording` asserts
`internal_sample_rate_hz > output_sample_rate_hz` (line 132) before any
sample is produced, and on success the WAV is written tagged with the
requested `output_sample_rate_hz` (line 195). -/
def synthFileEffects (internalSampleRateHz outputSampleRateHz : Nat) : List SynthEffect :=
  SynthEffect.openOutputFile ::
    (if internalSampleRateHz > outputSampleRateHz then
      [SynthEffect.writeWav outputSampleRateHz]
    else [SynthEffect.assertFailed])

/-- Extended value carrying the IEEE special values that the float pipeline
can produce; `fin` carries the exact rational value of a finite float
(rounding is not modelled, only the special values matter to the claims). -/
inductive FloatVal where
  | fin (q : ℚ)
  | nan
  | pinf
  | ninf
deriving DecidableEq, Repr

/-- IEEE subtraction on extended values. -/
def FloatVal.sub : FloatVal → FloatVal → FloatVal
  | .fin a, .fin b => .fin (a - b)
  | .nan, _ => .nan
  | _, .nan => .nan
  | .pinf, .pinf => .nan
  | .ninf, .ninf => .nan
  | .pinf, _ => .pinf
  | .ninf, _ => .ninf
  | .fin _, .pinf => .ninf
  | .fin _, .ninf => .pinf

/-- IEEE addition on extended values. -/
def FloatVal.add : FloatVal → FloatVal → FloatVal
  | .fin a, .fin b => .fin (a + b)
  | .nan, _ => .nan
  | _, .nan => .nan
  | .pinf, .ninf => .nan
  | .ninf, .pinf => .nan
  | .pinf, _ => .pinf
  | .ninf, _ => .ninf
  | .fin _, .pinf => .pinf
  | .fin _, .ninf => .ninf

/-- IEEE multiplication on extended values (zero times infinity is NaN). -/
def FloatVal.mul : FloatVal → FloatVal → FloatVal
  | .fin a, .fin b => .fin (a * b)
  | .nan, _ => .nan
  | _, .nan => .nan
  | .pinf, .pinf => .pinf
  | .ninf, .ninf => .pinf
  | .pinf, .ninf => .ninf
  | .ninf, .pinf => .ninf
  | .fin a, .pinf => if a = 0 then .nan else if 0 < a then .pinf else .ninf
  | .fin a, .ninf => if a = 0 then .nan else if 0 < a then .ninf else .pinf
  | .pinf, .fin a => if a = 0 then .nan else if 0 < a then .pinf else .ninf
  | .ninf, .fin a => if a = 0 then .nan else if 0 < a then .ninf else .pinf

/-- IEEE division on extended values: division by (positive) zero yields
NaN for a zero numerator and a signed infinity otherwise. -/
def FloatVal.div : FloatVal → FloatVal → FloatVal
  | .fin a, .fin b =>
      if b = 0 then (if a = 0 then .nan else if 0 < a then .pinf else .ninf)
      else .fin (a / b)
  | .nan, _ => .nan
  | _, .nan => .nan
  | .pinf, .pinf => .nan
  | .ninf, .ninf => .nan
  | .pinf, .ninf => .nan
  | .ninf, .pinf => .nan
  | .pinf, .fin a => if 0 ≤ a then .pinf else .ninf
  | .ninf, .fin a => if 0 ≤ a then .ninf else .pinf
  | .fin _, .pinf => .fin 0
  | .fin _, .ninf => .fin 0

/-- The `rescale` function of generate-report.py lines 43-47 under IEEE
float semantics: same affine formula, evaluated with the special values
made explicit.  The input series holds finite CSV floats; the target
interval is a pair of finite endpoints. -/
def rescaleFloat (series : List ℚ) (target : ℚ × ℚ) : List FloatVal :=
  series.map (fun x =>
    (((FloatVal.fin x).sub (.fin (listMin series))).div
        (.fin (intervalLength (interval series))) |>.mul
      (.fin (intervalLength target)) |>.add (.fin target.1)))

/-- Numpy `np.round` (round half to even) to an integer. -/
noncomputable def npRound (x : ℝ) : ℤ :=
  if Int.fract x = 1/2 then 2 * round (x / 2) else round x

/-- Window `scipy.signal.windows.gaussian(M, std)`:
`exp(-(n - (M-1)/2)^2 / (2 std^2))` for `n` over `range M`. -/
noncomputable def gaussianKernel (M : Nat) (std : ℝ) : List ℝ :=
  (List.range M).map (fun n =>
    Real.exp (-(((n : ℝ) - ((M : ℝ) - 1) / 2) ^ 2) / (2 * std ^ 2)))

/-- Full discrete convolution of two sample lists. -/
noncomputable def convolveFull (a k : List ℝ) : List ℝ :=
  (List.range (a.length + k.length - 1)).map (fun n =>
    ((List.range (n + 1)).map (fun i => a.getD i 0 * k.getD (n - i) 0)).sum)

/-- Convolution in `mode="same"`: the central `a.length` entries of the
full convolution. -/
noncomputable def convolveSame (a k : List ℝ) : List ℝ :=
  ((convolveFull a k).drop ((k.length - 1) / 2)).take a.length

/-- Function `apply_gaussian_filter` of generate-fake-recording.py lines
109-118: convolve with a gaussian window of length
`round(stddev_samples * 10)` normalised to unit sum. -/
noncomputable def apply_gaussian_filter (samples : List ℝ) (stddevSamples : ℝ) : List ℝ :=
  convolveSame samples
    ((gaussianKernel (npRound (stddevSamples * 10)).toNat stddevSamples).map
      (· / (gaussianKernel (npRound (stddevSamples * 10)).toNat stddevSamples).sum))

/-- First-order IIR recurrence `y[n] = b0 x[n] + b1 x[n-1] - a1 y[n-1]`
(`scipy.signal.sosfilt` with a single second-order section whose
second-order coefficients vanish), with previous input and output as
state. -/
noncomputable def iirFirstOrderFrom (b0 b1 a1 xPrev yPrev : ℝ) : List ℝ → List ℝ
  | [] => []
  | x :: rest =>
      (b0 * x + b1 * xPrev - a1 * yPrev) ::
        iirFirstOrderFrom b0 b1 a1 x (b0 * x + b1 * xPrev - a1 * yPrev) rest

/-- Lines 185-191 of generate-fake-recording.py:
`scipy.signal.butter(1, cutoff, "highpass", fs=rate, output="sos")`
followed by `sosfilt`.  The digital coefficients of the first-order
Butterworth high-pass come from the bilinear transform with pre-warped
frequency `w = tan(pi cutoff / rate)`:
`b = [1/(1+w), -1/(1+w)]`, `a = [1, (w-1)/(w+1)]`. -/
noncomputable def highPassFilter (cutoffHz sampleRateHz : ℝ) (samples : List ℝ) : List ℝ :=
  iirFirstOrderFrom (1 / (1 + Real.tan (Real.pi * cutoffHz / sampleRateHz)))
    (-(1 / (1 + Real.tan (Real.pi * cutoffHz / sampleRateHz))))
    ((Real.tan (Real.pi * cutoffHz / sampleRateHz) - 1)
      / (Real.tan (Real.pi * cutoffHz / sampleRateHz) + 1))
    0 0 samples

/-- Lines 179-183 of generate-fake-recording.py: the gaussian filter runs
only under `if args.gaussian_filter_stddev_seconds:`, i.e. it is skipped
exactly when the option is zero (python float truthiness); the filter's
stddev in samples is the stddev in seconds times the sample rate. -/
noncomputable def gaussianStage (gaussianFilterStddevSeconds sampleRateHz : ℝ)
    (samples : List ℝ) : List ℝ :=
  if gaussianFilterStddevSeconds = 0 then samples
  else apply_gaussian_filter samples (gaussianFilterStddevSeconds * sampleRateHz)

/-- Lines 185-191: the high-pass filter runs only under
`if args.high_pass_filter_hz:`, i.e. it is skipped exactly when the cutoff
option is zero. -/
noncomputable def highPassStage (highPassFilterHz sampleRateHz : ℝ)
    (samples : List ℝ) : List ℝ :=
  if highPassFilterHz = 0 then samples
  else highPassFilter highPassFilterHz sampleRateHz samples

/-- The two optional output filter stages of generate-fake-recording.py
lines 179-191, in program order: gaussian smoothing, then the AC-coupling
high-pass. -/
noncomputable def applyOutputFilters (gaussianFilterStddevSeconds highPassFilterHz
    sampleRateHz : ℝ) (samples : List ℝ) : List ℝ :=
  highPassStage highPassFilterHz sampleRateHz
    (gaussianStage gaussianFilterStddevSeconds sampleRateHz samples)

/-- The anomaly categories of the report chart. -/
inductive AnomalyTag where
  | repeatedTransition
  | missingTransition
deriving DecidableEq, Repr

/-- The anomaly column computed by chart_anomalies (generate-report.py
lines 211-231): a repeated row is a repeated-transition anomaly; otherwise
a row with a present recorded timestamp is no anomaly; otherwise it is a
missing-transition anomaly. -/
def rowAnomaly (r : AlignedRow) : Option AnomalyTag :=
  if r.repeated then some .repeatedTransition
  else if r.recording_timestamp_seconds.isSome then none
  else some .missingTransition

/-- Decidable equality for pipeline results, so concrete runs can be
checked by evaluation. -/
instance instDecEqExcept {ε α : Type} [DecidableEq ε] [DecidableEq α] :
    DecidableEq (Except ε α) := fun a b =>
  match a, b with
  | .ok x, .ok y =>
      if h : x = y then .isTrue (by rw [h]) else .isFalse (by simp [h])
  | .error x, .error y =>
      if h : x = y then .isTrue (by rw [h]) else .isFalse (by simp [h])
  | .ok _, .error _ => .isFalse (by simp)
  | .error _, .ok _ => .isFalse (by simp)

/-- C1: for the spec with fps 24/1 and frames BLACK, WHITE, BLACK, WHITE the
aligner derives exactly the three reference transitions 1/24, 2/24, 3/24
seconds with labels WHITE, BLACK, WHITE and previous_frame_count 1, and on
the recorded CSV holding exactly these three timestamps with matching
labels every row of the aligned table ends with error_seconds = 0 after the
rescaling, skew-compensation and per-label bias-removal passes. -/
theorem concreteScenario_threeTransitions_zeroError :
    referenceTransitions 24 1 [.BLACK, .WHITE, .BLACK, .WHITE] =
      [⟨1, 1/24, .WHITE, 1⟩, ⟨2, 2/24, .BLACK, 1⟩, ⟨3, 3/24, .WHITE, 1⟩] ∧
    (generate_report 24 1 [.BLACK, .WHITE, .BLACK, .WHITE]
        [⟨1/24, .WHITE⟩, ⟨2/24, .BLACK⟩, ⟨3/24, .WHITE⟩] true).map
      (fun p => p.1.map (·.error_seconds)) = .ok [some 0, some 0, some 0] := by
  constructor
  · with_unfolding_all decide
  · with_unfolding_all decide

/-- C4: the internal working sample rate is the requested output rate times
the (exact) ceiling of min internal rate over output rate, hence an integer
multiple of the output rate; the WAV is tagged with the requested output
rate, which equals internal_rate / downsample_ratio exactly. -/
theorem internalRate_integerMultiple_taggedRate (a b : Nat) (hb : 0 < b) (hab : b < a) :
    internalSampleRate a b = b * downsample_ratio a b ∧
    (downsample_ratio a b : ℤ) = ⌈(a : ℚ) / (b : ℚ)⌉ ∧
    (internalSampleRate a b : ℚ) / (downsample_ratio a b : ℚ) = (b : ℚ) ∧
    SynthEffect.writeWav b ∈ synthFileEffects a b := by
  have hbq : (0 : ℚ) < (b : ℚ) := by exact_mod_cast hb
  have haq : (0 : ℚ) < (a : ℚ) := by exact_mod_cast hb.trans hab
  have hr : (0 : ℤ) < ⌈(a : ℚ) / (b : ℚ)⌉ := Int.ceil_pos.mpr (div_pos haq hbq)
  have hcast : (downsample_ratio a b : ℤ) = ⌈(a : ℚ) / (b : ℚ)⌉ :=
    Int.toNat_of_nonneg hr.le
  have hr0 : downsample_ratio a b ≠ 0 := by
    intro h0
    rw [h0] at hcast
    exact hr.ne' (by exact_mod_cast hcast.symm)
  have hrQ : ((downsample_ratio a b : Nat) : ℚ) ≠ 0 := Nat.cast_ne_zero.mpr hr0
  refine ⟨rfl, hcast, ?_, by simp [synthFileEffects, hab]⟩
  rw [internalSampleRate]
  push_cast
  rw [mul_div_assoc, div_self hrQ, mul_one]

/-- Witness for the sample-rate theorem at the tool's default rates
100000 / 48000: ratio 3, internal rate 144000. -/
theorem internalRate_integerMultiple_taggedRate_witness :
    0 < 48000 ∧ 48000 < 100000 ∧
      (internalSampleRate 100000 48000 = 48000 * downsample_ratio 100000 48000 ∧
        (downsample_ratio 100000 48000 : ℤ) = ⌈(100000 : ℚ) / (48000 : ℚ)⌉ ∧
        (internalSampleRate 100000 48000 : ℚ) / (downsample_ratio 100000 48000 : ℚ) =
          (48000 : ℚ) ∧
        SynthEffect.writeWav 48000 ∈ synthFileEffects 100000 48000) :=
  ⟨by decide, by decide,
    internalRate_integerMultiple_taggedRate 100000 48000 (by decide) (by decide)⟩

/-- C5 counterexample: running the synthesizer with equal internal and
output sample rates makes the assert fail, but the output file has already
been opened (created or truncated) by argument parsing, so an empty output
artifact is left behind; the effect trace is not the artifact-free one. -/
theorem failedAssert_outputFileAlreadyOpened :
    synthFileEffects 48000 48000 =
      [SynthEffect.openOutputFile, SynthEffect.assertFailed] ∧
    synthFileEffects 48000 48000 ≠ [SynthEffect.assertFailed] := by
  constructor
  · decide
  · decide

/-- C5 amended: whenever the minimum internal sample rate is not strictly
greater than the output rate, the run aborts at the assert before any
sample is synthesized or written (no WAV write effect), though after
argument parsing has already opened the output file. -/
theorem failedAssert_noWavWritten (a b : Nat) (h : a ≤ b) :
    synthFileEffects a b = [SynthEffect.openOutputFile, SynthEffect.assertFailed] := by
  simp [synthFileEffects, Nat.not_lt.mpr h]

/-- Witness for the amended C5 statement at rates 10 / 20. -/
theorem failedAssert_noWavWritten_witness :
    10 ≤ 20 ∧ synthFileEffects 10 20 =
      [SynthEffect.openOutputFile, SynthEffect.assertFailed] :=
  ⟨by decide, failedAssert_noWavWritten 10 20 (by decide)⟩

/-- C8: a zero gaussian stddev skips the gaussian stage entirely, a zero
high-pass cutoff skips the high-pass stage entirely, and with both zero the
filter pipeline is the identity on the samples. -/
theorem zeroFilterOptions_identity (g hp fs : ℝ) (samples : List ℝ) :
    applyOutputFilters 0 hp fs samples = highPassStage hp fs samples ∧
    applyOutputFilters g 0 fs samples = gaussianStage g fs samples ∧
    applyOutputFilters 0 0 fs samples = samples := by
  refine ⟨?_, ?_, ?_⟩
  · simp [applyOutputFilters, gaussianStage]
  · simp [applyOutputFilters, highPassStage]
  · simp [applyOutputFilters, gaussianStage, highPassStage]

/-- Helper: the fold computing `listMin` is bounded by its seed. -/
theorem foldl_min_le_seed (xs : List ℚ) : ∀ x : ℚ, xs.foldl min x ≤ x := by
  induction xs with
  | nil => intro x; simp
  | cons y ys ih =>
      intro x
      calc (y :: ys).foldl min x = ys.foldl min (min x y) := by simp
        _ ≤ min x y := ih (min x y)
        _ ≤ x := min_le_left x y

/-- Helper: the fold computing `listMax` dominates its seed. -/
theorem seed_le_foldl_max (xs : List ℚ) : ∀ x : ℚ, x ≤ xs.foldl max x := by
  induction xs with
  | nil => intro x; simp
  | cons y ys ih =>
      intro x
      calc x ≤ max x y := le_max_left x y
        _ ≤ ys.foldl max (max x y) := ih (max x y)
        _ = (y :: ys).foldl max x := by simp

/-- The minimum of a nonempty list never exceeds its maximum. -/
theorem listMin_le_listMax (l : List ℚ) (h : l ≠ []) : listMin l ≤ listMax l := by
  match l, h with
  | x :: xs, _ =>
      calc listMin (x :: xs) ≤ x := foldl_min_le_seed xs x
        _ ≤ listMax (x :: xs) := seed_le_foldl_max xs x

/-- On a constant list the fold computing `listMin` returns the constant. -/
theorem foldl_min_const (c : ℚ) : ∀ xs : List ℚ, (∀ x ∈ xs, x = c) → xs.foldl min c = c := by
  intro xs
  induction xs with
  | nil => intro _; rfl
  | cons y ys ih =>
      intro hall
      have hy : y = c := hall y (by simp)
      have : ∀ x ∈ ys, x = c := fun x hx => hall x (by simp [hx])
      simp [hy, ih this]

/-- On a constant list the fold computing `listMax` returns the constant. -/
theorem foldl_max_const (c : ℚ) : ∀ xs : List ℚ, (∀ x ∈ xs, x = c) → xs.foldl max c = c := by
  intro xs
  induction xs with
  | nil => intro _; rfl
  | cons y ys ih =>
      intro hall
      have hy : y = c := hall y (by simp)
      have : ∀ x ∈ ys, x = c := fun x hx => hall x (by simp [hx])
      simp [hy, ih this]

/-- C10: on any nonempty recorded timeline with fewer than two distinct
timestamps (all entries equal), the unguarded rescale division is 0/0 for
every element under IEEE semantics, so every scaled timestamp comes out
NaN; the function returns these values, it reports no error. -/
theorem rescale_degenerateRecordedInterval_allNaN (series : List ℚ) (c : ℚ)
    (target : ℚ × ℚ) (hne : series ≠ [])
    (hconst : series.all (fun x => decide (x = c)) = true) :
    rescaleFloat series target = List.replicate series.length FloatVal.nan := by
  have hall : ∀ x ∈ series, x = c := by
    intro x hx
    have := List.all_eq_true.mp hconst x hx
    exact of_decide_eq_true this
  have hmin : listMin series = c := by
    match series, hne with
    | x :: xs, _ =>
        have hx : x = c := hall x (by simp)
        have hxs : ∀ y ∈ xs, y = c := fun y hy => hall y (by simp [hy])
        simpa [listMin, hx] using foldl_min_const c xs hxs
  have hmax : listMax series = c := by
    match series, hne with
    | x :: xs, _ =>
        have hx : x = c := hall x (by simp)
        have hxs : ∀ y ∈ xs, y = c := fun y hy => hall y (by simp [hy])
        simpa [listMax, hx] using foldl_max_const c xs hxs
  have hlen : intervalLength (interval series) = 0 := by
    simp [intervalLength, interval, hmin, hmax]
  have : ∀ x ∈ series,
      ((((FloatVal.fin x).sub (.fin (listMin series))).div
          (.fin (intervalLength (interval series)))).mul
        (.fin (intervalLength target))).add (.fin target.1) = FloatVal.nan := by
    intro x hx
    rw [hall x hx, hmin, hlen]
    simp [FloatVal.sub, FloatVal.div, FloatVal.mul, FloatVal.add]
  calc rescaleFloat series target
      = series.map (fun _ => FloatVal.nan) := List.map_congr_left this
    _ = List.replicate series.length FloatVal.nan := List.map_const' series FloatVal.nan

/-- Witness for the degenerate-rescale theorem on the two-row timeline
[5, 5]. -/
theorem rescale_degenerateRecordedInterval_allNaN_witness :
    ([(5 : ℚ), 5] ≠ []) ∧
      ([(5 : ℚ), 5].all (fun x => decide (x = 5)) = true) ∧
      rescaleFloat [(5 : ℚ), 5] (1/24, 1/8) = List.replicate 2 FloatVal.nan :=
  ⟨by decide, by with_unfolding_all decide,
    rescale_degenerateRecordedInterval_allNaN [(5 : ℚ), 5] 5 (1/24, 1/8) (by decide)
      (by with_unfolding_all decide)⟩

/-- Sum of a list after subtracting a constant from every element. -/
theorem sum_map_sub_const (l : List ℚ) (c : ℚ) :
    (l.map (· - c)).sum = l.sum - l.length * c := by
  induction l with
  | nil => simp
  | cons x xs ih =>
      simp [ih]
      ring

/-- Subtracting the mean of a nonempty list from each of its elements
leaves a list of mean zero (exactly, in rational arithmetic). -/
theorem meanQ_center (l : List ℚ) (h : l ≠ []) : meanQ (l.map (· - meanQ l)) = 0 := by
  have hn : ((l.length : ℚ)) ≠ 0 :=
    Nat.cast_ne_zero.mpr (fun h0 => h (List.length_eq_zero.mp h0))
  unfold meanQ
  rw [List.length_map, sum_map_sub_const, mul_comm, div_mul_cancel₀ _ hn]
  simp

/-- The BLACK-labelled error values of the bias-subtracted rows are the
original BLACK-labelled error values shifted by the black offset. -/
theorem labelErrors_map_subtract_black (bo wo : ℚ) :
    ∀ rows : List AlignedRow,
      labelErrors Frame.BLACK (rows.map (subtractLabelOffset bo wo)) =
        (labelErrors Frame.BLACK rows).map (· - bo)
  | [] => rfl
  | r :: rest => by
      have ih := labelErrors_map_subtract_black bo wo rest
      by_cases hb : r.frame = some Frame.BLACK
      · cases he : r.error_seconds <;>
          simp [labelErrors, subtractLabelOffset, hb, he, ih, List.filter_cons,
            List.filterMap_cons] <;>
          simpa [labelErrors] using ih
      · by_cases hw : r.frame = some Frame.WHITE
        · simp [labelErrors, subtractLabelOffset, hb, hw, List.filter_cons]
          simpa [labelErrors] using ih
        · simp [labelErrors, subtractLabelOffset, hb, hw, List.filter_cons]
          simpa [labelErrors] using ih

/-- The WHITE-labelled error values of the bias-subtracted rows are the
original WHITE-labelled error values shifted by the white offset. -/
theorem labelErrors_map_subtract_white (bo wo : ℚ) :
    ∀ rows : List AlignedRow,
      labelErrors Frame.WHITE (rows.map (subtractLabelOffset bo wo)) =
        (labelErrors Frame.WHITE rows).map (· - wo)
  | [] => rfl
  | r :: rest => by
      have ih := labelErrors_map_subtract_white bo wo rest
      by_cases hb : r.frame = some Frame.BLACK
      · simp [labelErrors, subtractLabelOffset, hb, List.filter_cons]
        simpa [labelErrors] using ih
      · by_cases hw : r.frame = some Frame.WHITE
        · cases he : r.error_seconds <;>
            simp [labelErrors, subtractLabelOffset, hb, hw, he, ih, List.filter_cons,
              List.filterMap_cons] <;>
            simpa [labelErrors] using ih
        · simp [labelErrors, subtractLabelOffset, hb, hw, List.filter_cons]
          simpa [labelErrors] using ih

/-- C7: after the per-label bias-removal pass, the mean error over the
BLACK-labelled rows and the mean error over the WHITE-labelled rows are
each exactly zero, whenever the respective per-label mean is defined
(the label has at least one error value). -/
theorem biasRemoval_zeroLabelMeans (rows : List AlignedRow) :
    (labelErrors Frame.BLACK rows ≠ [] →
      meanQ (labelErrors Frame.BLACK (biasStage rows)) = 0) ∧
    (labelErrors Frame.WHITE rows ≠ [] →
      meanQ (labelErrors Frame.WHITE (biasStage rows)) = 0) := by
  constructor
  · intro hb
    rw [biasStage, labelErrors_map_subtract_black]
    exact meanQ_center _ hb
  · intro hw
    rw [biasStage, labelErrors_map_subtract_white]
    exact meanQ_center _ hw

/-- Witness for the bias-removal theorem on a three-row table with black
errors 1 and 3 and white error 2. -/
theorem biasRemoval_zeroLabelMeans_witness :
    labelErrors Frame.BLACK
        [⟨0, .WHITE, 1, some 0, some 0, some .BLACK, false, 0, some 1⟩,
          ⟨1, .WHITE, 1, some 1, some 1, some .BLACK, false, 0, some 3⟩,
          ⟨2, .WHITE, 1, some 2, some 2, some .WHITE, false, 0, some 2⟩] ≠ [] ∧
    labelErrors Frame.WHITE
        [⟨0, .WHITE, 1, some 0, some 0, some .BLACK, false, 0, some 1⟩,
          ⟨1, .WHITE, 1, some 1, some 1, some .BLACK, false, 0, some 3⟩,
          ⟨2, .WHITE, 1, some 2, some 2, some .WHITE, false, 0, some 2⟩] ≠ [] ∧
    meanQ (labelErrors Frame.BLACK (biasStage
        [⟨0, .WHITE, 1, some 0, some 0, some .BLACK, false, 0, some 1⟩,
          ⟨1, .WHITE, 1, some 1, some 1, some .BLACK, false, 0, some 3⟩,
          ⟨2, .WHITE, 1, some 2, some 2, some .WHITE, false, 0, some 2⟩])) = 0 ∧
    meanQ (labelErrors Frame.WHITE (biasStage
        [⟨0, .WHITE, 1, some 0, some 0, some .BLACK, false, 0, some 1⟩,
          ⟨1, .WHITE, 1, some 1, some 1, some .BLACK, false, 0, some 3⟩,
          ⟨2, .WHITE, 1, some 2, some 2, some .WHITE, false, 0, some 2⟩])) = 0 :=
  ⟨by with_unfolding_all decide, by with_unfolding_all decide,
    (biasRemoval_zeroLabelMeans _).1 (by with_unfolding_all decide),
    (biasRemoval_zeroLabelMeans _).2 (by with_unfolding_all decide)⟩

/-- C3: the skew/offset regression is fitted over exactly the valid rows
(recorded timestamp present and not repeated, via `fitPoints`), with the
degree-1 least-squares line when clock-skew compensation is requested and
the degree-0 mean otherwise; when the fitted first (window-scaled)
coefficient exceeds 0.10 in magnitude the stage still returns the table
with the fitted prediction subtracted from every row, accompanied only by
the large-clock-skew warning. -/
theorem skewPass_warnsAndStillSubtracts (rows : List AlignedRow)
    (hne : fitPoints rows ≠ []) (hD : fitDenom (fitPoints rows) ≠ 0)
    (hbig : |fitCoef1 (fitPoints rows)| > 1/10) :
    skewStage true rows =
      .ok (rows.map (subtractFit (fitIntercept (fitPoints rows))
          (fitSlope (fitPoints rows))),
        [ReportMessage.largeClockSkew (1 + fitCoef1 (fitPoints rows))]) ∧
    skewStage false rows =
      .ok (rows.map (subtractFit (meanQ ((fitPoints rows).map (·.2))) 0), []) := by
  have hbig2 : (10 : ℚ)⁻¹ < |fitCoef1 (fitPoints rows)| := by
    rw [← one_div]
    exact hbig
  constructor
  · simp [skewStage, hne, hD, hbig2]
  · simp [skewStage, hne]

/-- Witness for the skew-pass theorem on a two-row table with errors 0 and
1 at timestamps 0 and 1 (raw slope 1, window-scaled coefficient 1/2). -/
theorem skewPass_warnsAndStillSubtracts_witness :
    fitPoints
        [⟨0, .WHITE, 1, some 0, some 0, some .WHITE, false, 0, some 0⟩,
          ⟨1, .BLACK, 1, some 1, some 1, some .BLACK, false, 0, some 1⟩] ≠ [] ∧
    fitDenom (fitPoints
        [⟨0, .WHITE, 1, some 0, some 0, some .WHITE, false, 0, some 0⟩,
          ⟨1, .BLACK, 1, some 1, some 1, some .BLACK, false, 0, some 1⟩]) ≠ 0 ∧
    |fitCoef1 (fitPoints
        [⟨0, .WHITE, 1, some 0, some 0, some .WHITE, false, 0, some 0⟩,
          ⟨1, .BLACK, 1, some 1, some 1, some .BLACK, false, 0, some 1⟩])| > 1/10 ∧
    (skewStage true
        [⟨0, .WHITE, 1, some 0, some 0, some .WHITE, false, 0, some 0⟩,
          ⟨1, .BLACK, 1, some 1, some 1, some .BLACK, false, 0, some 1⟩] =
      .ok ([⟨0, .WHITE, 1, some 0, some 0, some .WHITE, false, 0, some 0⟩,
          ⟨1, .BLACK, 1, some 1, some 1, some .BLACK, false, 0, some 1⟩].map
          (subtractFit (fitIntercept (fitPoints
            [⟨0, .WHITE, 1, some 0, some 0, some .WHITE, false, 0, some 0⟩,
              ⟨1, .BLACK, 1, some 1, some 1, some .BLACK, false, 0, some 1⟩]))
            (fitSlope (fitPoints
              [⟨0, .WHITE, 1, some 0, some 0, some .WHITE, false, 0, some 0⟩,
                ⟨1, .BLACK, 1, some 1, some 1, some .BLACK, false, 0, some 1⟩]))),
        [ReportMessage.largeClockSkew (1 + fitCoef1 (fitPoints
          [⟨0, .WHITE, 1, some 0, some 0, some .WHITE, false, 0, some 0⟩,
            ⟨1, .BLACK, 1, some 1, some 1, some .BLACK, false, 0, some 1⟩]))]) ∧
      skewStage false
          [⟨0, .WHITE, 1, some 0, some 0, some .WHITE, false, 0, some 0⟩,
            ⟨1, .BLACK, 1, some 1, some 1, some .BLACK, false, 0, some 1⟩] =
        .ok ([⟨0, .WHITE, 1, some 0, some 0, some .WHITE, false, 0, some 0⟩,
            ⟨1, .BLACK, 1, some 1, some 1, some .BLACK, false, 0, some 1⟩].map
            (subtractFit (meanQ ((fitPoints
              [⟨0, .WHITE, 1, some 0, some 0, some .WHITE, false, 0, some 0⟩,
                ⟨1, .BLACK, 1, some 1, some 1, some .BLACK, false, 0, some 1⟩]).map
              (·.2))) 0), [])) :=
  ⟨by with_unfolding_all decide, by with_unfolding_all decide,
    by with_unfolding_all decide,
    skewPass_warnsAndStillSubtracts _ (by with_unfolding_all decide)
      (by with_unfolding_all decide) (by with_unfolding_all decide)⟩

/-- The diff tail has the same length as its input. -/
theorem transitionsDiffTail_length :
    ∀ (prev : Frame) (l : List Frame), (transitionsDiffTail prev l).length = l.length
  | _, [] => rfl
  | _, f :: rest => by simp [transitionsDiffTail, transitionsDiffTail_length f rest]

/-- The diff series has one entry per frame. -/
theorem transitionsDiff_length (frames : List Frame) :
    (transitionsDiff frames).length = frames.length := by
  cases frames with
  | nil => rfl
  | cons f rest => simp [transitionsDiff, transitionsDiffTail_length]

/-- The cumulative sum has one entry per input. -/
theorem cumsumBoolFrom_length :
    ∀ (acc : Nat) (l : List Bool), (cumsumBoolFrom acc l).length = l.length
  | _, [] => rfl
  | acc, b :: rest => by simp [cumsumBoolFrom, cumsumBoolFrom_length _ rest]

/-- The group cumulative count has one entry per key. -/
theorem groupCumcountFrom_length :
    ∀ (seen keys : List Nat), (groupCumcountFrom seen keys).length = keys.length
  | _, [] => rfl
  | seen, k :: rest => by simp [groupCumcountFrom, groupCumcountFrom_length (k :: seen) rest]

/-- Shifting a series preserves its length. -/
theorem seriesShift_length (l : List Nat) : (seriesShift l).length = l.length := by
  cases l with
  | nil => rfl
  | cons x xs => simp [seriesShift]

/-- Pairwise strict increase of the leading range component of a doubly
zipped list. -/
theorem pairwise_fst_lt_zipRange {A B : Type} (n : Nat) (l1 : List A) (l2 : List B) :
    List.Pairwise (fun p q : (Nat × A) × B => p.1.1 < q.1.1)
      (((List.range n).zip l1).zip l2) := by
  rw [List.pairwise_iff_getElem]
  intro i j hi hj hij
  have hlen : i < n ∧ i < l1.length ∧ i < l2.length ∧ j < n ∧ j < l1.length ∧
      j < l2.length := by
    simp only [List.length_zip, List.length_range, lt_min_iff] at hi hj
    exact ⟨hi.1.1, hi.1.2, hi.2, hj.1.1, hj.1.2, hj.2⟩
  rw [List.getElem_zip, List.getElem_zip, List.getElem_zip, List.getElem_zip,
    List.getElem_range, List.getElem_range]
  exact hij

/-- A member of a doubly zipped range list whose range component is zero is
the head of the list. -/
theorem mem_zipRange_fst_zero {A B : Type} {n : Nat} {l1 : List A} {l2 : List B}
    {p : (Nat × A) × B} (hp : p ∈ ((List.range n).zip l1).zip l2) (h0 : p.1.1 = 0) :
    ∃ (h1 : 0 < l1.length) (h2 : 0 < l2.length), p = ((0, l1[0]), l2[0]) := by
  obtain ⟨i, hi, hEq⟩ := List.mem_iff_getElem.mp hp
  have hlen : i < n ∧ i < l1.length ∧ i < l2.length := by
    simp only [List.length_zip, List.length_range, lt_min_iff] at hi
    exact ⟨hi.1.1, hi.1.2, hi.2⟩
  obtain ⟨hin, hil1, hil2⟩ := hlen
  have hin2 : i < (List.range n).length := by simpa [List.length_range] using hin
  have hproj : (((List.range n).zip l1).zip l2)[i] =
      (((List.range n)[i], l1[i]), l2[i]) := by
    rw [List.getElem_zip, List.getElem_zip]
  have hrange : (List.range n)[i] = i := List.getElem_range _ _
  rw [hproj, hrange] at hEq
  have hi0 : i = 0 := by
    rw [← hEq] at h0
    simpa using h0
  subst hi0
  exact ⟨hil1, hil2, hEq.symm⟩

/-- The first entry of the transition diff series is always false. -/
theorem transitionsDiff_getElem_zero (frames : List Frame)
    (h : 0 < (transitionsDiff frames).length) : (transitionsDiff frames)[0] = false := by
  cases frames with
  | nil => simp [transitionsDiff] at h
  | cons f rest => simp [transitionsDiff]

/-- C6: for positive fps numerator and denominator, the reference
transitions derived from any frame list have strictly increasing
timestamps, each timestamp is its frame index times the frame duration,
and no transition carries frame index 0 (the very first frame is never a
transition). -/
theorem referenceTransitions_monotone_noFirstFrame (num den : Nat) (frames : List Frame)
    (hnum : 0 < num) (hden : 0 < den) :
    List.Pairwise (fun a b => a.timestamp_seconds < b.timestamp_seconds)
      (referenceTransitions num den frames) ∧
    ∀ r ∈ referenceTransitions num den frames,
      r.timestamp_seconds = (r.index : ℚ) * frameDuration num den ∧ r.index ≠ 0 := by
  have hd : 0 < frameDuration num den := by
    unfold frameDuration
    exact div_pos (by exact_mod_cast hden) (by exact_mod_cast hnum)
  simp only [referenceTransitions]
  constructor
  · rw [List.pairwise_map]
    refine List.Pairwise.imp ?_
      (List.Pairwise.sublist (List.filter_sublist _)
        (pairwise_fst_lt_zipRange frames.length frames _))
    exact fun h => mul_lt_mul_of_pos_right (by exact_mod_cast h) hd
  · intro r hr
    obtain ⟨p, hpF, rfl⟩ := List.mem_map.mp hr
    refine ⟨rfl, ?_⟩
    have hpmem := List.mem_filter.mp hpF
    have htrue : p.2.1 = true := by simpa using hpmem.2
    intro h0
    obtain ⟨h1, h2, hEq⟩ := mem_zipRange_fst_zero hpmem.1 h0
    have hdlen : 0 < (transitionsDiff frames).length := by
      simp only [List.length_zip, lt_min_iff] at h2
      exact h2.1
    have hp21 : p.2.1 = (transitionsDiff frames)[0] := by
      rw [hEq, List.getElem_zip]
    rw [hp21, transitionsDiff_getElem_zero frames hdlen] at htrue
    exact Bool.false_ne_true htrue

/-- Witness for the reference-transition invariant theorem at the concrete
24 fps spec with frames BLACK, WHITE, BLACK, WHITE. -/
theorem referenceTransitions_monotone_noFirstFrame_witness :
    0 < 24 ∧ 0 < 1 ∧
      (List.Pairwise (fun a b => a.timestamp_seconds < b.timestamp_seconds)
        (referenceTransitions 24 1 [.BLACK, .WHITE, .BLACK, .WHITE]) ∧
      ∀ r ∈ referenceTransitions 24 1 [.BLACK, .WHITE, .BLACK, .WHITE],
        r.timestamp_seconds = (r.index : ℚ) * frameDuration 24 1 ∧ r.index ≠ 0) :=
  ⟨by decide, by decide,
    referenceTransitions_monotone_noFirstFrame 24 1 [.BLACK, .WHITE, .BLACK, .WHITE]
      (by decide) (by decide)⟩

/-- Mapping a monotone function over a sorted list keeps it sorted. -/
theorem sortedLE_map_mono (f : ℚ → ℚ) (hf : ∀ a b : ℚ, a ≤ b → f a ≤ f b) :
    ∀ l : List ℚ, sortedLE l = true → sortedLE (l.map f) = true
  | [] => by intro _; rfl
  | [x] => by intro _; rfl
  | x :: y :: rest => by
      intro h
      simp only [sortedLE, Bool.and_eq_true, decide_eq_true_eq] at h
      have ih := sortedLE_map_mono f hf (y :: rest) h.2
      simp only [List.map_cons] at ih ⊢
      simp only [sortedLE, Bool.and_eq_true, decide_eq_true_eq]
      exact ⟨hf x y h.1, ih⟩

/-- The affine rescaling map is monotone when the original interval has
positive length and the target interval nonnegative length. -/
theorem rescaleMap_mono (m L T c : ℚ) (hL : 0 < L) (hT : 0 ≤ T) :
    ∀ a b : ℚ, a ≤ b → (a - m) / L * T + c ≤ (b - m) / L * T + c := by
  intro a b hab
  gcongr

/-- C9 counterexample: on a recorded CSV whose rows are not sorted by
recording timestamp, the aligner does not complete: the as-of merge
(whose left keys must be sorted) raises, i.e. the align stage returns an
error rather than an aligned table. -/
theorem alignStage_unsortedInput_fails :
    alignStage (referenceTransitions 24 1 [.BLACK, .WHITE, .BLACK, .WHITE])
      [⟨1/12, .BLACK⟩, ⟨1/24, .WHITE⟩] = .error .unsortedMergeKeys := by
  with_unfolding_all decide

/-- C9 amended: the aligner completes the rescaling and nearest-neighbor
association and produces the aligned table whenever the recorded rows are
sorted by recording timestamp (and the degenerate NaN-key configurations
are excluded); for unsorted input the merge raises instead. -/
theorem alignStage_sortedInput_succeeds (refs : List RefTransition)
    (recorded : List RecordedRow)
    (hsorted : sortedLE (recorded.map (·.recording_timestamp_seconds)) = true)
    (hok : ¬(recorded.map (·.recording_timestamp_seconds) ≠ [] ∧
      (intervalLength (interval (recorded.map (·.recording_timestamp_seconds))) = 0 ∨
        refs = []))) :
    alignStage refs recorded =
      .ok (setError (setExpected (recorded.map (·.recording_timestamp_seconds))
        (setRepeated (mergedTable refs recorded)))) := by
  have hscaled : sortedLE (scaledTimestamps refs recorded) = true := by
    rcases List.eq_nil_or_concat (recorded.map (·.recording_timestamp_seconds)) with he | hne
    · unfold scaledTimestamps rescale
      rw [he]
      rfl
    · have hnonempty : recorded.map (·.recording_timestamp_seconds) ≠ [] := by
        obtain ⟨l, a, hl⟩ := hne
        simp [hl]
      have hcond : intervalLength (interval (recorded.map (·.recording_timestamp_seconds))) ≠ 0 := by
        intro hz
        exact hok ⟨hnonempty, Or.inl hz⟩
      have hge : 0 ≤ intervalLength (interval (recorded.map (·.recording_timestamp_seconds))) := by
        unfold intervalLength interval
        have := listMin_le_listMax (recorded.map (·.recording_timestamp_seconds)) hnonempty
        simpa using this
      have hLpos : 0 < intervalLength (interval (recorded.map (·.recording_timestamp_seconds))) :=
        lt_of_le_of_ne hge (Ne.symm hcond)
      have hTsnn : 0 ≤ intervalLength (interval (refs.map (·.timestamp_seconds))) := by
        rcases List.eq_nil_or_concat (refs.map (·.timestamp_seconds)) with he2 | hne2
        · rw [he2]
          simp [intervalLength, interval, listMin, listMax]
        · have : refs.map (·.timestamp_seconds) ≠ [] := by
            obtain ⟨l, a, hl⟩ := hne2
            simp [hl]
          have := listMin_le_listMax (refs.map (·.timestamp_seconds)) this
          unfold intervalLength interval
          simpa using this
      unfold scaledTimestamps rescale
      exact sortedLE_map_mono _
        (rescaleMap_mono _ _ _ _ hLpos hTsnn) _ hsorted
  unfold alignStage
  rw [if_neg hok, if_neg (by simp [hscaled])]

/-- Witness for the sorted-input theorem on the three-row recorded timeline
of the concrete scenario. -/
theorem alignStage_sortedInput_succeeds_witness :
    sortedLE ([⟨1/24, .WHITE⟩, ⟨1/12, .BLACK⟩, ⟨1/8, .WHITE⟩].map
        (RecordedRow.recording_timestamp_seconds)) = true ∧
    ¬(([⟨1/24, .WHITE⟩, ⟨1/12, .BLACK⟩, ⟨1/8, .WHITE⟩].map
          (RecordedRow.recording_timestamp_seconds)) ≠ [] ∧
        (intervalLength (interval ([⟨1/24, .WHITE⟩, ⟨1/12, .BLACK⟩, ⟨1/8, .WHITE⟩].map
          (RecordedRow.recording_timestamp_seconds))) = 0 ∨
          referenceTransitions 24 1 [.BLACK, .WHITE, .BLACK, .WHITE] = [])) ∧
    alignStage (referenceTransitions 24 1 [.BLACK, .WHITE, .BLACK, .WHITE])
        [⟨1/24, .WHITE⟩, ⟨1/12, .BLACK⟩, ⟨1/8, .WHITE⟩] =
      .ok (setError (setExpected ([⟨1/24, .WHITE⟩, ⟨1/12, .BLACK⟩, ⟨1/8, .WHITE⟩].map
          (RecordedRow.recording_timestamp_seconds))
        (setRepeated (mergedTable (referenceTransitions 24 1 [.BLACK, .WHITE, .BLACK, .WHITE])
          [⟨1/24, .WHITE⟩, ⟨1/12, .BLACK⟩, ⟨1/8, .WHITE⟩])))) :=
  ⟨by with_unfolding_all decide, by with_unfolding_all decide,
    alignStage_sortedInput_succeeds _ _ (by with_unfolding_all decide)
      (by with_unfolding_all decide)⟩

/-- Every row of a reference transition's merge block carries that
transition's timestamp. -/
theorem rowsForRef_refTs (refs : List RefTransition) (recorded : List RecordedRow)
    (rf : RefTransition) :
    ∀ a ∈ rowsForRef refs recorded rf,
      a.reference_timestamp_seconds = rf.timestamp_seconds := by
  intro a ha
  unfold rowsForRef at ha
  by_cases hm : matchedRows refs recorded rf.timestamp_seconds = []
  · rw [if_pos hm] at ha
    simp at ha
    rw [ha]
  · rw [if_neg hm] at ha
    obtain ⟨p, hp, rfl⟩ := List.mem_map.mp ha
    rfl

/-- The size of a reference transition's merge block: its match count, or a
single missing row when nothing matched. -/
theorem rowsForRef_length (refs : List RefTransition) (recorded : List RecordedRow)
    (rf : RefTransition) :
    (rowsForRef refs recorded rf).length =
      if matchCount refs recorded rf.timestamp_seconds = 0 then 1
      else matchCount refs recorded rf.timestamp_seconds := by
  unfold rowsForRef matchCount
  by_cases hm : matchedRows refs recorded rf.timestamp_seconds = []
  · simp [hm]
  · rw [if_neg hm, List.length_map,
      if_neg (fun h => hm (List.length_eq_zero.mp h))]

/-- Counting rows with a given reference timestamp inside one block. -/
theorem countP_refTs_rowsForRef (refs : List RefTransition) (recorded : List RecordedRow)
    (rf : RefTransition) (t : ℚ) :
    (rowsForRef refs recorded rf).countP
        (fun s => s.reference_timestamp_seconds = t) =
      if rf.timestamp_seconds = t then (rowsForRef refs recorded rf).length else 0 := by
  by_cases h : rf.timestamp_seconds = t
  · rw [if_pos h]
    apply List.countP_eq_length.mpr
    intro a ha
    simp [rowsForRef_refTs refs recorded rf a ha, h]
  · rw [if_neg h]
    apply List.countP_eq_zero.mpr
    intro a ha
    simp [rowsForRef_refTs refs recorded rf a ha, h]

/-- Summing a per-key indicator over a list whose keys are pairwise
distinct picks out the unique matching entry. -/
theorem sum_map_ite_single {A : Type} (key : A → ℚ) (f : A → Nat) (t : ℚ) :
    ∀ l : List A, List.Pairwise (fun a b => key a ≠ key b) l →
      ∀ rf ∈ l, key rf = t →
        (l.map (fun r => if key r = t then f r else 0)).sum = f rf
  | [], _, rf, hrf, _ => absurd hrf (List.not_mem_nil rf)
  | r :: rest, hp, rf, hrf, ht => by
      obtain ⟨hhead, htail⟩ := List.pairwise_cons.mp hp
      rcases List.mem_cons.mp hrf with he | hm
      · subst he
        rw [List.map_cons, List.sum_cons, if_pos ht]
        have hz : (rest.map (fun r2 => if key r2 = t then f r2 else 0)).sum = 0 := by
          apply List.sum_eq_zero
          intro x hx
          obtain ⟨r2, hr2, rfl⟩ := List.mem_map.mp hx
          rw [if_neg (fun hq => hhead r2 hr2 (ht.trans hq.symm))]
        rw [hz]
        exact Nat.add_zero _
      · have hne : key r ≠ t := fun hq => hhead rf hm (hq.trans ht.symm)
        rw [List.map_cons, List.sum_cons, if_neg hne, Nat.zero_add]
        exact sum_map_ite_single key f t rest htail rf hm ht

/-- With pairwise distinct reference timestamps, the number of merged-table
rows carrying a given reference timestamp is the size of that reference
transition's block. -/
theorem countP_mergedTable (refs : List RefTransition) (recorded : List RecordedRow)
    (hdist : List.Pairwise (fun a b => a.timestamp_seconds ≠ b.timestamp_seconds) refs)
    (rf : RefTransition) (hrf : rf ∈ refs) :
    (mergedTable refs recorded).countP
        (fun s => s.reference_timestamp_seconds = rf.timestamp_seconds) =
      (rowsForRef refs recorded rf).length := by
  unfold mergedTable
  rw [List.countP_flatten, List.map_map]
  have hmap : refs.map
        ((fun l => l.countP
            (fun s => s.reference_timestamp_seconds = rf.timestamp_seconds)) ∘
          rowsForRef refs recorded) =
      refs.map (fun r => if r.timestamp_seconds = rf.timestamp_seconds then
        (rowsForRef refs recorded r).length else 0) :=
    List.map_congr_left (fun r _ =>
      countP_refTs_rowsForRef refs recorded r rf.timestamp_seconds)
  rw [hmap]
  exact sum_map_ite_single (fun a => a.timestamp_seconds)
    (fun r => (rowsForRef refs recorded r).length) rf.timestamp_seconds refs hdist rf hrf rfl

/-- Every merged-table row comes from some reference transition's block. -/
theorem mem_mergedTable (refs : List RefTransition) (recorded : List RecordedRow)
    (r0 : AlignedRow) (h : r0 ∈ mergedTable refs recorded) :
    ∃ rf ∈ refs, r0 ∈ rowsForRef refs recorded rf := by
  unfold mergedTable at h
  rw [List.mem_flatten] at h
  obtain ⟨l, hl, hr⟩ := h
  obtain ⟨rf, hrf, rfl⟩ := List.mem_map.mp hl
  exact ⟨rf, hrf, hr⟩

/-- A row of the repeated-flag pass: its key columns come from a source row
and its flag counts the rows sharing its reference timestamp. -/
theorem mem_setRepeated (l : List AlignedRow) (m : AlignedRow) (hm : m ∈ setRepeated l) :
    ∃ r0 ∈ l,
      m.reference_timestamp_seconds = r0.reference_timestamp_seconds ∧
      m.recording_timestamp_seconds = r0.recording_timestamp_seconds ∧
      m.repeated = decide (2 ≤ l.countP
        (fun s => s.reference_timestamp_seconds = r0.reference_timestamp_seconds)) := by
  unfold setRepeated at hm
  obtain ⟨r0, hr0, rfl⟩ := List.mem_map.mp hm
  exact ⟨r0, hr0, rfl, rfl, rfl⟩

/-- The expected-timestamp pass keeps the key columns of its rows. -/
theorem mem_setExpected (ts : List ℚ) (l : List AlignedRow) (m : AlignedRow)
    (hm : m ∈ setExpected ts l) :
    ∃ r0 ∈ l,
      m.reference_timestamp_seconds = r0.reference_timestamp_seconds ∧
      m.recording_timestamp_seconds = r0.recording_timestamp_seconds ∧
      m.repeated = r0.repeated := by
  unfold setExpected at hm
  obtain ⟨p, hp, rfl⟩ := List.mem_map.mp hm
  rcases p with ⟨a, b⟩
  exact ⟨a, (List.of_mem_zip hp).1, rfl, rfl, rfl⟩

/-- The error pass keeps the key columns of its rows. -/
theorem mem_setError (l : List AlignedRow) (m : AlignedRow) (hm : m ∈ setError l) :
    ∃ r0 ∈ l,
      m.reference_timestamp_seconds = r0.reference_timestamp_seconds ∧
      m.recording_timestamp_seconds = r0.recording_timestamp_seconds ∧
      m.repeated = r0.repeated := by
  unfold setError at hm
  obtain ⟨r0, hr0, rfl⟩ := List.mem_map.mp hm
  exact ⟨r0, hr0, rfl, rfl, rfl⟩

/-- A successful align stage produces exactly the merged table with the
repeated, expected and error columns attached. -/
theorem alignStage_ok_eq (refs : List RefTransition) (recorded : List RecordedRow)
    (table : List AlignedRow) (h : alignStage refs recorded = .ok table) :
    table = setError (setExpected (recorded.map (·.recording_timestamp_seconds))
      (setRepeated (mergedTable refs recorded))) := by
  simp only [alignStage] at h
  by_cases h1 : recorded.map (·.recording_timestamp_seconds) ≠ [] ∧
      (intervalLength (interval (recorded.map (·.recording_timestamp_seconds))) = 0 ∨
        refs = [])
  · rw [if_pos h1] at h
    exact absurd h (by simp)
  · rw [if_neg h1] at h
    by_cases h2 : ¬ sortedLE (scaledTimestamps refs recorded) = true
    · rw [if_pos h2] at h
      exact absurd h (by simp)
    · rw [if_neg h2] at h
      exact (Except.ok.inj h).symm

/-- C2 (amended): in any successfully aligned table over reference
transitions with pairwise distinct timestamps, a row is a
repeated-transition anomaly exactly when its reference timestamp was
matched by more than one recorded row of the nearest-neighbor merge;
otherwise it is a missing-transition anomaly exactly when its recorded
timestamp is absent; otherwise it is normal.  (The skew and bias passes
that follow only rewrite error_seconds, so the classification of the final
report rows is the same.) -/
theorem anomalyClassification (refs : List RefTransition) (recorded : List RecordedRow)
    (table : List AlignedRow) (row : AlignedRow)
    (hdist : List.Pairwise (fun a b => a.timestamp_seconds ≠ b.timestamp_seconds) refs)
    (halign : alignStage refs recorded = .ok table) (hrow : row ∈ table) :
    (rowAnomaly row = some .repeatedTransition ↔
      2 ≤ matchCount refs recorded row.reference_timestamp_seconds) ∧
    (rowAnomaly row ≠ some .repeatedTransition →
      (rowAnomaly row = some .missingTransition ↔
        row.recording_timestamp_seconds = none)) ∧
    (rowAnomaly row ≠ some .repeatedTransition →
      rowAnomaly row ≠ some .missingTransition → rowAnomaly row = none) := by
  have hEq := alignStage_ok_eq refs recorded table halign
  subst hEq
  obtain ⟨r1, hr1, e1a, e1b, e1c⟩ := mem_setError _ _ hrow
  obtain ⟨r2, hr2, e2a, e2b, e2c⟩ := mem_setExpected _ _ _ hr1
  obtain ⟨r0, hr0, e3a, e3b, e3c⟩ := mem_setRepeated _ _ hr2
  obtain ⟨rf, hrf, hrfmem⟩ := mem_mergedTable _ _ _ hr0
  have hts : r0.reference_timestamp_seconds = rf.timestamp_seconds :=
    rowsForRef_refTs _ _ _ _ hrfmem
  have hrowts : row.reference_timestamp_seconds = rf.timestamp_seconds := by
    rw [e1a, e2a, e3a, hts]
  have hrep : row.repeated = decide (2 ≤ (mergedTable refs recorded).countP
      (fun s => s.reference_timestamp_seconds = rf.timestamp_seconds)) := by
    rw [e1c, e2c, e3c, hts]
  rw [countP_mergedTable refs recorded hdist rf hrf, rowsForRef_length] at hrep
  have hrep2 : row.repeated =
      decide (2 ≤ matchCount refs recorded rf.timestamp_seconds) := by
    rw [hrep]
    by_cases h0 : matchCount refs recorded rf.timestamp_seconds = 0
    · simp [h0]
    · simp [h0]
  refine ⟨?_, ?_, ?_⟩
  · rw [hrowts]
    by_cases hmc : 2 ≤ matchCount refs recorded rf.timestamp_seconds
    · have hb : row.repeated = true := by
        rw [hrep2]
        exact decide_eq_true hmc
      simp [rowAnomaly, hb, hmc]
    · have hb : row.repeated = false := by
        rw [hrep2]
        exact decide_eq_false hmc
      cases hrec : row.recording_timestamp_seconds <;> simp [rowAnomaly, hb, hrec, hmc]
  · intro hnr
    by_cases hb : row.repeated
    · rw [rowAnomaly, if_pos hb] at hnr
      exact absurd rfl hnr
    · cases hrec : row.recording_timestamp_seconds <;>
        simp [rowAnomaly, hb, hrec]
  · intro hnr hnm
    by_cases hb : row.repeated
    · rw [rowAnomaly, if_pos hb] at hnr
      exact absurd rfl hnr
    · cases hrec : row.recording_timestamp_seconds
      · rw [rowAnomaly, if_neg (by simp [hb]), if_neg (by simp [hrec])] at hnm
        exact absurd rfl hnm
      · rw [rowAnomaly, if_neg (by simp [hb]), if_pos (by simp [hrec])]

/-- C2 counterexample: a recorded timeline that omits exactly one
reference transition and detects another one twice yields an aligned table
with two repeated-transition rows (both rows sharing the duplicated
reference timestamp are flagged), one missing-transition row and one
normal row, so the table does not report exactly one repeated anomaly. -/
theorem duplicatedDetection_twoRepeatedRows :
    ((alignStage (referenceTransitions 24 1 [.BLACK, .WHITE, .BLACK, .WHITE])
        [⟨1/24, .WHITE⟩, ⟨21/480, .WHITE⟩, ⟨1/8, .WHITE⟩]).map
      (fun t => (t.countP (fun r => rowAnomaly r = some .repeatedTransition),
        t.countP (fun r => rowAnomaly r = some .missingTransition),
        t.countP (fun r => rowAnomaly r = none)))) = .ok (2, 1, 1) ∧
    ((alignStage (referenceTransitions 24 1 [.BLACK, .WHITE, .BLACK, .WHITE])
        [⟨1/24, .WHITE⟩, ⟨21/480, .WHITE⟩, ⟨1/8, .WHITE⟩]).map
      (fun t => t.countP (fun r => rowAnomaly r = some .repeatedTransition))) ≠
      .ok 1 := by
  constructor
  · with_unfolding_all decide
  · with_unfolding_all decide

/-- Witness for the anomaly-classification theorem at a two-reference,
two-row aligned run. -/
theorem anomalyClassification_witness :
    List.Pairwise (fun a b => a.timestamp_seconds ≠ b.timestamp_seconds)
      (referenceTransitions 24 1 [.BLACK, .WHITE, .BLACK]) ∧
    alignStage (referenceTransitions 24 1 [.BLACK, .WHITE, .BLACK])
        [⟨1/24, .WHITE⟩, ⟨1/12, .BLACK⟩] =
      .ok [⟨1/24, .WHITE, 1, some (1/24), some (1/24), some .WHITE, false, 1/24, some 0⟩,
        ⟨1/12, .BLACK, 1, some (1/12), some (1/12), some .BLACK, false, 1/12, some 0⟩] ∧
    (⟨1/24, .WHITE, 1, some (1/24), some (1/24), some .WHITE, false, 1/24, some 0⟩ :
        AlignedRow) ∈
      [(⟨1/24, .WHITE, 1, some (1/24), some (1/24), some .WHITE, false, 1/24, some 0⟩ :
          AlignedRow),
        ⟨1/12, .BLACK, 1, some (1/12), some (1/12), some .BLACK, false, 1/12, some 0⟩] ∧
    ((rowAnomaly ⟨1/24, .WHITE, 1, some (1/24), some (1/24), some .WHITE, false, 1/24,
          some 0⟩ = some .repeatedTransition ↔
        2 ≤ matchCount (referenceTransitions 24 1 [.BLACK, .WHITE, .BLACK])
          [⟨1/24, .WHITE⟩, ⟨1/12, .BLACK⟩]
          (AlignedRow.reference_timestamp_seconds
            ⟨1/24, .WHITE, 1, some (1/24), some (1/24), some .WHITE, false, 1/24,
              some 0⟩)) ∧
      (rowAnomaly ⟨1/24, .WHITE, 1, some (1/24), some (1/24), some .WHITE, false, 1/24,
          some 0⟩ ≠ some .repeatedTransition →
        (rowAnomaly ⟨1/24, .WHITE, 1, some (1/24), some (1/24), some .WHITE, false, 1/24,
            some 0⟩ = some .missingTransition ↔
          AlignedRow.recording_timestamp_seconds
            ⟨1/24, .WHITE, 1, some (1/24), some (1/24), some .WHITE, false, 1/24,
              some 0⟩ = none)) ∧
      (rowAnomaly ⟨1/24, .WHITE, 1, some (1/24), some (1/24), some .WHITE, false, 1/24,
          some 0⟩ ≠ some .repeatedTransition →
        rowAnomaly ⟨1/24, .WHITE, 1, some (1/24), some (1/24), some .WHITE, false, 1/24,
            some 0⟩ ≠ some .missingTransition →
        rowAnomaly ⟨1/24, .WHITE, 1, some (1/24), some (1/24), some .WHITE, false, 1/24,
            some 0⟩ = none)) :=
  ⟨by with_unfolding_all decide, by with_unfolding_all decide,
    by with_unfolding_all decide,
    anomalyClassification (referenceTransitions 24 1 [.BLACK, .WHITE, .BLACK])
      [⟨1/24, .WHITE⟩, ⟨1/12, .BLACK⟩]
      [⟨1/24, .WHITE, 1, some (1/24), some (1/24), some .WHITE, false, 1/24, some 0⟩,
        ⟨1/12, .BLACK, 1, some (1/12), some (1/12), some .BLACK, false, 1/12, some 0⟩]
      ⟨1/24, .WHITE, 1, some (1/24), some (1/24), some .WHITE, false, 1/24, some 0⟩
      (by with_unfolding_all decide)
      (by with_unfolding_all decide) (by with_unfolding_all decide)⟩
